import Mathlib

/-!
Verification of the agentic-knowledge-base content pipeline.

The repository's executable surface is `src/content/config.ts`: three Zod
schemas (`docsCollection`, `brainDumpsCollection`, `stagingCollection`)
validating YAML frontmatter of markdown files, plus a published-docs query
filter (`getCollection('docs', ({data}) => !data.draft)`).

We embed frontmatter values as a small JSON/YAML-like value type, frontmatter
objects as association lists, and each Zod schema as a parser
`Frontmatter → Option R` into a record type `R`, mirroring the combinators
used in `config.ts` (`z.string()`, `z.date()`, `z.boolean()`, `z.number()`,
`z.array(z.string())`, `z.enum([...])`, `.optional()`, `.default(v)`).
A Zod object schema looks up each declared key, ignores undeclared keys, and
fails (build error) when a required key is absent or a value has the wrong
shape; `.optional()` accepts absence, `.default(v)` substitutes `v` on
absence.
-/

namespace AgenticKB

/-- A YAML frontmatter scalar/value, as seen by the schema after YAML
parsing: strings, booleans, numbers, dates and arrays. -/
inductive JVal where
  | str : String → JVal
  | bool : Bool → JVal
  | num : Int → JVal
  | date : Nat → JVal
  | arr : List JVal → JVal

/-- A frontmatter object: a finite mapping from keys to values, first
binding wins. -/
abbrev Frontmatter := List (String × JVal)

/-- Key lookup in a frontmatter object. -/
def lookupKey (k : String) : Frontmatter → Option JVal
  | [] => none
  | (k', v) :: rest => if k' = k then some v else lookupKey k rest

/-- `z.string()`. -/
def zString : JVal → Option String
  | .str s => some s
  | _ => none

/-- `z.boolean()`. -/
def zBool : JVal → Option Bool
  | .bool b => some b
  | _ => none

/-- `z.number()`. -/
def zNumber : JVal → Option Int
  | .num n => some n
  | _ => none

/-- `z.date()`. -/
def zDate : JVal → Option Nat
  | .date d => some d
  | _ => none

/-- Elementwise `z.string()` over a YAML sequence. -/
def strList : List JVal → Option (List String)
  | [] => some []
  | .str s :: rest => (strList rest).map (fun l => s :: l)
  | _ => none

/-- `z.array(z.string())`. -/
def zArrayString : JVal → Option (List String)
  | .arr vs => strList vs
  | _ => none

/-- `z.enum(vals)`: a string drawn from `vals`. -/
def zEnum (vals : List String) : JVal → Option String
  | .str s => if s ∈ vals then some s else none
  | _ => none

/-- A required field: absence or a wrong shape is a validation error. -/
def reqField (k : String) (p : JVal → Option α) (f : Frontmatter) : Option α :=
  (lookupKey k f).bind p

/-- A `.optional()` field: absence is accepted as `none`; a present value of
the wrong shape is still an error. -/
def optField (k : String) (p : JVal → Option α) (f : Frontmatter) :
    Option (Option α) :=
  match lookupKey k f with
  | none => some none
  | some v => (p v).map some

/-- A `.default(d)` field: absence is accepted and replaced by `d`. -/
def defField (k : String) (p : JVal → Option α) (d : α) (f : Frontmatter) :
    Option α :=
  match lookupKey k f with
  | none => some d
  | some v => p v

/-- Parsed frontmatter of the `docs` collection (`docsCollection`). -/
structure DocPage where
  title : String
  description : String
  date : Option Nat
  draft : Bool
  order : Option Int
  category : Option String
  tags : Option (List String)
  sidebar : Bool
deriving DecidableEq, Repr

/-- Parsed frontmatter of the `brain-dumps` collection
(`brainDumpsCollection`). -/
structure BrainDump where
  title : String
  date : Nat
  source : String
  duration : Option String
  tags : Option (List String)
  processed : Bool
  stagedItems : Option (List String)
deriving DecidableEq, Repr

/-- Parsed frontmatter of the `staging` collection (`stagingCollection`). -/
structure StagingEntry where
  title : String
  description : String
  sourceFile : String
  extractedDate : Nat
  targetCategory : Option String
  status : String
  tags : List String
  relatedTopics : Option (List String)
  integrationNotes : Option String
deriving DecidableEq, Repr

/-- The `source` enum of `brainDumpsCollection`. -/
def sourceEnum : List String := ["audio", "text", "transcript", "conversation"]

/-- The `status` enum of `stagingCollection`. -/
def statusEnum : List String := ["new", "reviewed", "ready", "integrated"]

/-- The `docsCollection` schema of `src/content/config.ts`. -/
def docsParse (f : Frontmatter) : Option DocPage := do
  let title ← reqField "title" zString f
  let description ← reqField "description" zString f
  let date ← optField "date" zDate f
  let draft ← defField "draft" zBool false f
  let order ← optField "order" zNumber f
  let category ← optField "category" zString f
  let tags ← optField "tags" zArrayString f
  let sidebar ← defField "sidebar" zBool true f
  pure ⟨title, description, date, draft, order, category, tags, sidebar⟩

/-- The `brainDumpsCollection` schema of `src/content/config.ts`. -/
def brainDumpsParse (f : Frontmatter) : Option BrainDump := do
  let title ← reqField "title" zString f
  let date ← reqField "date" zDate f
  let source ← reqField "source" (zEnum sourceEnum) f
  let duration ← optField "duration" zString f
  let tags ← optField "tags" zArrayString f
  let processed ← defField "processed" zBool false f
  let stagedItems ← optField "stagedItems" zArrayString f
  pure ⟨title, date, source, duration, tags, processed, stagedItems⟩

/-- The `stagingCollection` schema of `src/content/config.ts`. -/
def stagingParse (f : Frontmatter) : Option StagingEntry := do
  let title ← reqField "title" zString f
  let description ← reqField "description" zString f
  let sourceFile ← reqField "sourceFile" zString f
  let extractedDate ← reqField "extractedDate" zDate f
  let targetCategory ← optField "targetCategory" zString f
  let status ← defField "status" (zEnum statusEnum) "new" f
  let tags ← reqField "tags" zArrayString f
  let relatedTopics ← optField "relatedTopics" zArrayString f
  let integrationNotes ← optField "integrationNotes" zString f
  pure ⟨title, description, sourceFile, extractedDate, targetCategory,
    status, tags, relatedTopics, integrationNotes⟩

/-- The published-docs query filter of the content-query layer:
`getCollection('docs', ({ data }) => !data.draft)`. -/
def publishedDocs (docs : List DocPage) : List DocPage :=
  docs.filter (fun d => !d.draft)

/-- A snapshot of the content directories: the brain-dump and staging file
names present, and the accepted frontmatter records under them. -/
structure ContentState where
  dumpFiles : List String
  stagingFiles : List String
  dumps : List BrainDump
  stagings : List StagingEntry

/-- The spec's first referential-integrity invariant: every
`StagingEntry.sourceFile` references an existing brain-dump file. -/
def sourceFileResolves (st : ContentState) : Prop :=
  ∀ e ∈ st.stagings, e.sourceFile ∈ st.dumpFiles

/-- The spec's second referential-integrity invariant: every entry of a
`BrainDump.stagedItems` list references an existing staging file. -/
def stagedItemsResolve (st : ContentState) : Prop :=
  ∀ b ∈ st.dumps, ∀ l, b.stagedItems = some l → ∀ i ∈ l, i ∈ st.stagingFiles

/-- Referential integrity across the collections, as stated in the spec. -/
def refIntegrity (st : ContentState) : Prop :=
  sourceFileResolves st ∧ stagedItemsResolve st

/-- Executable check of referential integrity over a content state. -/
def refIntegrityCheck (st : ContentState) : Bool :=
  st.stagings.all (fun e => decide (e.sourceFile ∈ st.dumpFiles)) &&
  st.dumps.all (fun b =>
    match b.stagedItems with
    | none => true
    | some l => l.all (fun i => decide (i ∈ st.stagingFiles)))

/-- An optional frontmatter entry: absent fields are omitted from the
serialized mapping. -/
def optEntry {α : Type} (k : String) (enc : α → JVal) : Option α → Frontmatter
  | none => []
  | some a => [(k, enc a)]

/-- Modelled from the spec: YAML serialization of frontmatter is performed
by the framework, not by code in this repository; following the spec's
round-trip property we model serializing a parsed docs record back to a
YAML mapping, omitting absent optional fields. -/
def docsEmit (d : DocPage) : Frontmatter :=
  [("title", JVal.str d.title), ("description", JVal.str d.description)] ++
  optEntry "date" JVal.date d.date ++
  [("draft", JVal.bool d.draft)] ++
  optEntry "order" JVal.num d.order ++
  optEntry "category" JVal.str d.category ++
  optEntry "tags" (fun l => JVal.arr (l.map JVal.str)) d.tags ++
  [("sidebar", JVal.bool d.sidebar)]

/-- Modelled from the spec: serialization of a parsed brain-dump record to
a YAML mapping (see `docsEmit`). -/
def brainDumpsEmit (b : BrainDump) : Frontmatter :=
  [("title", JVal.str b.title), ("date", JVal.date b.date),
   ("source", JVal.str b.source)] ++
  optEntry "duration" JVal.str b.duration ++
  optEntry "tags" (fun l => JVal.arr (l.map JVal.str)) b.tags ++
  [("processed", JVal.bool b.processed)] ++
  optEntry "stagedItems" (fun l => JVal.arr (l.map JVal.str)) b.stagedItems

/-- Modelled from the spec: serialization of a parsed staging record to a
YAML mapping (see `docsEmit`). -/
def stagingEmit (e : StagingEntry) : Frontmatter :=
  [("title", JVal.str e.title), ("description", JVal.str e.description),
   ("sourceFile", JVal.str e.sourceFile),
   ("extractedDate", JVal.date e.extractedDate)] ++
  optEntry "targetCategory" JVal.str e.targetCategory ++
  [("status", JVal.str e.status),
   ("tags", JVal.arr (e.tags.map JVal.str))] ++
  optEntry "relatedTopics" (fun l => JVal.arr (l.map JVal.str)) e.relatedTopics ++
  optEntry "integrationNotes" JVal.str e.integrationNotes

/-- Rank of a staging status in the workflow order
new → reviewed → ready → integrated. -/
def statusRank : String → Nat
  | "reviewed" => 1
  | "ready" => 2
  | "integrated" => 3
  | _ => 0

/-- One forward step of the status workflow. -/
def statusAdvances (s s' : String) : Prop :=
  (s = "new" ∧ s' = "reviewed") ∨ (s = "reviewed" ∧ s' = "ready") ∨
  (s = "ready" ∧ s' = "integrated")

/-- Modelled from the spec: the review workflow over staging entries is a
natural-language runbook, not code in this repository; per the spec a
workflow edit to a staging entry either leaves the status unchanged (editing
other fields) or advances it one step along new → reviewed → ready →
integrated. -/
def WorkflowEdit (e e' : StagingEntry) : Prop :=
  e'.status = e.status ∨ statusAdvances e.status e'.status

/-! ### Basic lemmas about the combinators -/

theorem reqField_none {α : Type} {k : String} {p : JVal → Option α}
    {f : Frontmatter} (h : lookupKey k f = none) : reqField k p f = none := by
  simp [reqField, h]

theorem reqField_some {α : Type} {k : String} {p : JVal → Option α}
    {f : Frontmatter} {a : α} (h : reqField k p f = some a) :
    ∃ v, lookupKey k f = some v ∧ p v = some a := by
  simpa [reqField, Option.bind_eq_some] using h

theorem reqField_of_lookup {α : Type} {k : String} {p : JVal → Option α}
    {f : Frontmatter} {v : JVal} (h : lookupKey k f = some v) :
    reqField k p f = p v := by
  simp [reqField, h]

theorem defField_of_lookup {α : Type} {k : String} {p : JVal → Option α}
    {d : α} {f : Frontmatter} {v : JVal} (h : lookupKey k f = some v) :
    defField k p d f = p v := by
  simp [defField, h]

theorem defField_of_absent {α : Type} {k : String} {p : JVal → Option α}
    {d : α} {f : Frontmatter} (h : lookupKey k f = none) :
    defField k p d f = some d := by
  simp [defField, h]

theorem optField_of_absent {α : Type} {k : String} {p : JVal → Option α}
    {f : Frontmatter} (h : lookupKey k f = none) : optField k p f = some none := by
  simp [optField, h]

theorem optField_of_lookup {α : Type} {k : String} {p : JVal → Option α}
    {f : Frontmatter} {v : JVal} (h : lookupKey k f = some v) :
    optField k p f = (p v).map some := by
  simp [optField, h]

theorem strList_map (l : List String) : strList (l.map JVal.str) = some l := by
  induction l with
  | nil => rfl
  | cons a t ih => simp [strList, ih]

theorem strList_inv {vs : List JVal} {l : List String}
    (h : strList vs = some l) : vs = l.map JVal.str := by
  induction vs generalizing l with
  | nil =>
    cases h
    rfl
  | cons v t ih =>
    cases v <;> simp only [strList] at h <;> try cases h
    obtain ⟨l0, ht, hcons⟩ := Option.map_eq_some'.mp h
    subst hcons
    simp [ih ht]

theorem zArrayString_inv {v : JVal} {l : List String}
    (h : zArrayString v = some l) : v = JVal.arr (l.map JVal.str) := by
  cases v <;> simp only [zArrayString] at h <;> try cases h
  rw [strList_inv h]

theorem zString_some {v : JVal} {s : String} (h : zString v = some s) :
    v = JVal.str s := by
  cases v <;> simp [zString] at h
  simp [h]

theorem zEnum_mem {vals : List String} {v : JVal} {s : String}
    (h : zEnum vals v = some s) : s ∈ vals := by
  cases v <;> simp only [zEnum] at h <;> try cases h
  split at h
  · cases h
    assumption
  · cases h

/-! ### Inversion: what acceptance by each schema guarantees -/

theorem docsParse_inv {f : Frontmatter} {d : DocPage}
    (h : docsParse f = some d) :
    reqField "title" zString f = some d.title ∧
    reqField "description" zString f = some d.description ∧
    optField "date" zDate f = some d.date ∧
    defField "draft" zBool false f = some d.draft ∧
    optField "order" zNumber f = some d.order ∧
    optField "category" zString f = some d.category ∧
    optField "tags" zArrayString f = some d.tags ∧
    defField "sidebar" zBool true f = some d.sidebar := by
  simp only [docsParse, Option.bind_eq_bind, Option.bind_eq_some,
    Option.pure_def, Option.some.injEq] at h
  obtain ⟨t, ht, ds, hds, dt, hdt, dr, hdr, or, hor, c, hc, tg, htg, sb, hsb,
    heq⟩ := h
  subst heq
  exact ⟨ht, hds, hdt, hdr, hor, hc, htg, hsb⟩

theorem brainDumpsParse_inv {f : Frontmatter} {b : BrainDump}
    (h : brainDumpsParse f = some b) :
    reqField "title" zString f = some b.title ∧
    reqField "date" zDate f = some b.date ∧
    reqField "source" (zEnum sourceEnum) f = some b.source ∧
    optField "duration" zString f = some b.duration ∧
    optField "tags" zArrayString f = some b.tags ∧
    defField "processed" zBool false f = some b.processed ∧
    optField "stagedItems" zArrayString f = some b.stagedItems := by
  simp only [brainDumpsParse, Option.bind_eq_bind, Option.bind_eq_some,
    Option.pure_def, Option.some.injEq] at h
  obtain ⟨t, ht, dt, hdt, so, hso, du, hdu, tg, htg, pr, hpr, st, hst, heq⟩ := h
  subst heq
  exact ⟨ht, hdt, hso, hdu, htg, hpr, hst⟩

theorem stagingParse_inv {f : Frontmatter} {e : StagingEntry}
    (h : stagingParse f = some e) :
    reqField "title" zString f = some e.title ∧
    reqField "description" zString f = some e.description ∧
    reqField "sourceFile" zString f = some e.sourceFile ∧
    reqField "extractedDate" zDate f = some e.extractedDate ∧
    optField "targetCategory" zString f = some e.targetCategory ∧
    defField "status" (zEnum statusEnum) "new" f = some e.status ∧
    reqField "tags" zArrayString f = some e.tags ∧
    optField "relatedTopics" zArrayString f = some e.relatedTopics ∧
    optField "integrationNotes" zString f = some e.integrationNotes := by
  simp only [stagingParse, Option.bind_eq_bind, Option.bind_eq_some,
    Option.pure_def, Option.some.injEq] at h
  obtain ⟨t, ht, ds, hds, sf, hsf, ed, hed, tc, htc, st, hst, tg, htg, rt, hrt,
    intg, hintg, heq⟩ := h
  subst heq
  exact ⟨ht, hds, hsf, hed, htc, hst, htg, hrt, hintg⟩

/-! ### Rejection: malformed frontmatter fails validation -/

theorem docsParse_missing_title {f : Frontmatter}
    (h : lookupKey "title" f = none) : docsParse f = none := by
  cases hp : docsParse f with
  | none => rfl
  | some d =>
    have h1 := (docsParse_inv hp).1
    rw [reqField_none h] at h1
    cases h1

theorem docsParse_missing_description {f : Frontmatter}
    (h : lookupKey "description" f = none) : docsParse f = none := by
  cases hp : docsParse f with
  | none => rfl
  | some d =>
    have h1 := (docsParse_inv hp).2.1
    rw [reqField_none h] at h1
    cases h1

theorem brainDumpsParse_missing_title {f : Frontmatter}
    (h : lookupKey "title" f = none) : brainDumpsParse f = none := by
  cases hp : brainDumpsParse f with
  | none => rfl
  | some b =>
    have h1 := (brainDumpsParse_inv hp).1
    rw [reqField_none h] at h1
    cases h1

theorem brainDumpsParse_missing_date {f : Frontmatter}
    (h : lookupKey "date" f = none) : brainDumpsParse f = none := by
  cases hp : brainDumpsParse f with
  | none => rfl
  | some b =>
    have h1 := (brainDumpsParse_inv hp).2.1
    rw [reqField_none h] at h1
    cases h1

theorem brainDumpsParse_missing_source {f : Frontmatter}
    (h : lookupKey "source" f = none) : brainDumpsParse f = none := by
  cases hp : brainDumpsParse f with
  | none => rfl
  | some b =>
    have h1 := (brainDumpsParse_inv hp).2.2.1
    rw [reqField_none h] at h1
    cases h1

theorem brainDumpsParse_bad_source {f : Frontmatter} {s : String}
    (hv : lookupKey "source" f = some (JVal.str s)) (hs : s ∉ sourceEnum) :
    brainDumpsParse f = none := by
  cases hp : brainDumpsParse f with
  | none => rfl
  | some b =>
    have h1 := (brainDumpsParse_inv hp).2.2.1
    rw [reqField_of_lookup hv] at h1
    simp [zEnum, hs] at h1

theorem stagingParse_missing_title {f : Frontmatter}
    (h : lookupKey "title" f = none) : stagingParse f = none := by
  cases hp : stagingParse f with
  | none => rfl
  | some e =>
    have h1 := (stagingParse_inv hp).1
    rw [reqField_none h] at h1
    cases h1

theorem stagingParse_missing_description {f : Frontmatter}
    (h : lookupKey "description" f = none) : stagingParse f = none := by
  cases hp : stagingParse f with
  | none => rfl
  | some e =>
    have h1 := (stagingParse_inv hp).2.1
    rw [reqField_none h] at h1
    cases h1

theorem stagingParse_missing_sourceFile {f : Frontmatter}
    (h : lookupKey "sourceFile" f = none) : stagingParse f = none := by
  cases hp : stagingParse f with
  | none => rfl
  | some e =>
    have h1 := (stagingParse_inv hp).2.2.1
    rw [reqField_none h] at h1
    cases h1

theorem stagingParse_missing_extractedDate {f : Frontmatter}
    (h : lookupKey "extractedDate" f = none) : stagingParse f = none := by
  cases hp : stagingParse f with
  | none => rfl
  | some e =>
    have h1 := (stagingParse_inv hp).2.2.2.1
    rw [reqField_none h] at h1
    cases h1

theorem stagingParse_missing_tags {f : Frontmatter}
    (h : lookupKey "tags" f = none) : stagingParse f = none := by
  cases hp : stagingParse f with
  | none => rfl
  | some e =>
    have h1 := (stagingParse_inv hp).2.2.2.2.2.2.1
    rw [reqField_none h] at h1
    cases h1

theorem stagingParse_bad_status {f : Frontmatter} {s : String}
    (hv : lookupKey "status" f = some (JVal.str s)) (hs : s ∉ statusEnum) :
    stagingParse f = none := by
  cases hp : stagingParse f with
  | none => rfl
  | some e =>
    have h1 := (stagingParse_inv hp).2.2.2.2.2.1
    rw [defField_of_lookup hv] at h1
    simp [zEnum, hs] at h1

/-! ### Claim theorems -/

/-- Claim C1 is false on the code: `z.string()` places no lower bound on
length, so the docs schema accepts a frontmatter whose `title` and
`description` are both the empty string. -/
theorem claim_c1_counterexample :
    docsParse [("title", JVal.str ""), ("description", JVal.str "")] =
      some ⟨"", "", none, false, none, none, none, true⟩ := by
  rfl

/-- Claim C1 (amended): `title` and `description` are required string fields
of the docs schema — an entry missing either is rejected, and every accepted
entry carries exactly the frontmatter strings — but the strings may be empty. -/
theorem claim_c1_amended :
    (∀ f : Frontmatter, lookupKey "title" f = none → docsParse f = none) ∧
    (∀ f : Frontmatter, lookupKey "description" f = none → docsParse f = none) ∧
    (∀ (f : Frontmatter) (d : DocPage), docsParse f = some d →
      lookupKey "title" f = some (JVal.str d.title) ∧
      lookupKey "description" f = some (JVal.str d.description)) := by
  refine ⟨fun f h => docsParse_missing_title h,
    fun f h => docsParse_missing_description h, fun f d hp => ?_⟩
  obtain ⟨h1, h2, -⟩ := docsParse_inv hp
  obtain ⟨v1, hl1, hz1⟩ := reqField_some h1
  obtain ⟨v2, hl2, hz2⟩ := reqField_some h2
  rw [zString_some hz1] at hl1
  rw [zString_some hz2] at hl2
  exact ⟨hl1, hl2⟩

/-- Witness for the amended C1: a concrete docs entry without a title is
rejected, and on a concrete accepted entry the title is the frontmatter
string. -/
theorem claim_c1_amended_witness :
    docsParse [("description", JVal.str "d")] = none ∧
    lookupKey "title" [("title", JVal.str "t"), ("description", JVal.str "d")] =
      some (JVal.str "t") :=
  ⟨claim_c1_amended.1 [("description", JVal.str "d")] rfl,
   (claim_c1_amended.2.2 [("title", JVal.str "t"), ("description", JVal.str "d")]
      ⟨"t", "d", none, false, none, none, none, true⟩ rfl).1⟩

/-- Claim C4: build-time validation rejects malformed frontmatter — every
frontmatter missing a required field of its schema, or carrying a `source`
or `status` string outside the respective enum, parses to `none` (a build
error) rather than an accepted entry. -/
theorem claim_c4_rejects_malformed :
    (∀ f : Frontmatter, lookupKey "title" f = none → docsParse f = none) ∧
    (∀ f : Frontmatter, lookupKey "description" f = none → docsParse f = none) ∧
    (∀ f : Frontmatter, lookupKey "title" f = none → brainDumpsParse f = none) ∧
    (∀ f : Frontmatter, lookupKey "date" f = none → brainDumpsParse f = none) ∧
    (∀ f : Frontmatter, lookupKey "source" f = none → brainDumpsParse f = none) ∧
    (∀ (f : Frontmatter) (s : String), lookupKey "source" f = some (JVal.str s) →
      s ∉ sourceEnum → brainDumpsParse f = none) ∧
    (∀ f : Frontmatter, lookupKey "title" f = none → stagingParse f = none) ∧
    (∀ f : Frontmatter, lookupKey "description" f = none → stagingParse f = none) ∧
    (∀ f : Frontmatter, lookupKey "sourceFile" f = none → stagingParse f = none) ∧
    (∀ f : Frontmatter, lookupKey "extractedDate" f = none → stagingParse f = none) ∧
    (∀ f : Frontmatter, lookupKey "tags" f = none → stagingParse f = none) ∧
    (∀ (f : Frontmatter) (s : String), lookupKey "status" f = some (JVal.str s) →
      s ∉ statusEnum → stagingParse f = none) :=
  ⟨fun _ h => docsParse_missing_title h,
   fun _ h => docsParse_missing_description h,
   fun _ h => brainDumpsParse_missing_title h,
   fun _ h => brainDumpsParse_missing_date h,
   fun _ h => brainDumpsParse_missing_source h,
   fun _ _ hv hs => brainDumpsParse_bad_source hv hs,
   fun _ h => stagingParse_missing_title h,
   fun _ h => stagingParse_missing_description h,
   fun _ h => stagingParse_missing_sourceFile h,
   fun _ h => stagingParse_missing_extractedDate h,
   fun _ h => stagingParse_missing_tags h,
   fun _ _ hv hs => stagingParse_bad_status hv hs⟩

/-- Witness for C4: a docs entry without a title, a brain dump with an
out-of-enum source, and a staging entry with an out-of-enum status are all
rejected. -/
theorem claim_c4_witness :
    docsParse [("description", JVal.str "d")] = none ∧
    brainDumpsParse [("title", JVal.str "t"), ("date", JVal.date 1),
      ("source", JVal.str "video")] = none ∧
    stagingParse [("title", JVal.str "t"), ("description", JVal.str "d"),
      ("sourceFile", JVal.str "x"), ("extractedDate", JVal.date 1),
      ("tags", JVal.arr []), ("status", JVal.str "done")] = none :=
  ⟨claim_c4_rejects_malformed.1 [("description", JVal.str "d")] rfl,
   claim_c4_rejects_malformed.2.2.2.2.2.1 [("title", JVal.str "t"),
     ("date", JVal.date 1), ("source", JVal.str "video")] "video" rfl
     (by decide),
   claim_c4_rejects_malformed.2.2.2.2.2.2.2.2.2.2.2 [("title", JVal.str "t"),
     ("description", JVal.str "d"), ("sourceFile", JVal.str "x"),
     ("extractedDate", JVal.date 1), ("tags", JVal.arr []),
     ("status", JVal.str "done")] "done" rfl (by decide)⟩

/-- Claim C5: every staging entry accepted by the staging schema has a
status drawn from exactly the four enum values new, reviewed, ready,
integrated (the default "new" is itself one of them). -/
theorem claim_c5_status_enum (f : Frontmatter) (e : StagingEntry)
    (h : stagingParse f = some e) : e.status ∈ statusEnum := by
  have h1 := (stagingParse_inv h).2.2.2.2.2.1
  cases hl : lookupKey "status" f with
  | none =>
    rw [defField_of_absent hl] at h1
    rw [← Option.some.inj h1]
    decide
  | some v =>
    rw [defField_of_lookup hl] at h1
    exact zEnum_mem h1

/-- Witness for C5: the status of a concrete accepted staging entry, one
that omits the status key, is in the enum. -/
theorem claim_c5_witness :
    (⟨"t", "d", "x", 1, none, "new", [], none, none⟩ : StagingEntry).status ∈
      statusEnum :=
  claim_c5_status_enum [("title", JVal.str "t"), ("description", JVal.str "d"),
    ("sourceFile", JVal.str "x"), ("extractedDate", JVal.date 1),
    ("tags", JVal.arr [])] ⟨"t", "d", "x", 1, none, "new", [], none, none⟩ rfl

/-- Claim C6: a DocPage with draft = true is excluded from the published
query `getCollection('docs', ({data}) => !data.draft)`; the filter keeps
exactly the entries with draft = false. -/
theorem claim_c6_published_filter :
    (∀ (docs : List DocPage) (d : DocPage), d.draft = true →
      d ∉ publishedDocs docs) ∧
    (∀ (docs : List DocPage) (d : DocPage),
      d ∈ publishedDocs docs ↔ d ∈ docs ∧ d.draft = false) := by
  constructor
  · intro docs d hd hmem
    have hf := (List.mem_filter.mp hmem).2
    rw [hd] at hf
    cases hf
  · intro docs d
    simp [publishedDocs, List.mem_filter, Bool.not_eq_true']

/-- Witness for C6: a concrete draft page is not in the published docs of a
concrete collection containing it. -/
theorem claim_c6_witness :
    (⟨"t", "d", none, true, none, none, none, true⟩ : DocPage) ∉
      publishedDocs [⟨"t", "d", none, true, none, none, none, true⟩] :=
  claim_c6_published_filter.1 [⟨"t", "d", none, true, none, none, none, true⟩]
    ⟨"t", "d", none, true, none, none, none, true⟩ rfl

/-- Claim C9: defaulted fields — a frontmatter omitting a defaulted key is
still accepted (shown on concrete entries that omit them) and the parsed
result carries the default: draft = false and sidebar = true for docs,
processed = false for brain dumps, status = "new" for staging. -/
theorem claim_c9_defaults :
    (∀ (f : Frontmatter) (d : DocPage), docsParse f = some d →
      (lookupKey "draft" f = none → d.draft = false) ∧
      (lookupKey "sidebar" f = none → d.sidebar = true)) ∧
    (∀ (f : Frontmatter) (b : BrainDump), brainDumpsParse f = some b →
      lookupKey "processed" f = none → b.processed = false) ∧
    (∀ (f : Frontmatter) (e : StagingEntry), stagingParse f = some e →
      lookupKey "status" f = none → e.status = "new") ∧
    docsParse [("title", JVal.str "t"), ("description", JVal.str "d")] =
      some ⟨"t", "d", none, false, none, none, none, true⟩ ∧
    brainDumpsParse [("title", JVal.str "t"), ("date", JVal.date 1),
      ("source", JVal.str "text")] = some ⟨"t", 1, "text", none, none, false, none⟩ ∧
    stagingParse [("title", JVal.str "t"), ("description", JVal.str "d"),
      ("sourceFile", JVal.str "x"), ("extractedDate", JVal.date 1),
      ("tags", JVal.arr [])] =
      some ⟨"t", "d", "x", 1, none, "new", [], none, none⟩ := by
  refine ⟨fun f d hp => ⟨fun hl => ?_, fun hl => ?_⟩, fun f b hp hl => ?_,
    fun f e hp hl => ?_, rfl, rfl, rfl⟩
  · have h1 := (docsParse_inv hp).2.2.2.1
    rw [defField_of_absent hl] at h1
    exact (Option.some.inj h1).symm
  · have h1 := (docsParse_inv hp).2.2.2.2.2.2.2
    rw [defField_of_absent hl] at h1
    exact (Option.some.inj h1).symm
  · have h1 := (brainDumpsParse_inv hp).2.2.2.2.2.1
    rw [defField_of_absent hl] at h1
    exact (Option.some.inj h1).symm
  · have h1 := (stagingParse_inv hp).2.2.2.2.2.1
    rw [defField_of_absent hl] at h1
    exact (Option.some.inj h1).symm

/-- Witness for C9: the defaults hold on the concrete accepted entries that
omit the defaulted keys. -/
theorem claim_c9_witness :
    (⟨"t", "d", none, false, none, none, none, true⟩ : DocPage).draft = false ∧
    (⟨"t", 1, "text", none, none, false, none⟩ : BrainDump).processed = false ∧
    (⟨"t", "d", "x", 1, none, "new", [], none, none⟩ : StagingEntry).status =
      "new" :=
  ⟨(claim_c9_defaults.1 [("title", JVal.str "t"), ("description", JVal.str "d")]
      ⟨"t", "d", none, false, none, none, none, true⟩ rfl).1 rfl,
   claim_c9_defaults.2.1 [("title", JVal.str "t"), ("date", JVal.date 1),
      ("source", JVal.str "text")] ⟨"t", 1, "text", none, none, false, none⟩
      rfl rfl,
   claim_c9_defaults.2.2.1 [("title", JVal.str "t"), ("description", JVal.str "d"),
      ("sourceFile", JVal.str "x"), ("extractedDate", JVal.date 1),
      ("tags", JVal.arr [])] ⟨"t", "d", "x", 1, none, "new", [], none, none⟩
      rfl rfl⟩

/-- Claim C10: all three schemas are non-strict — prepending a key not
declared in the schema leaves the parse result unchanged, so an object with
extra keys is accepted whenever the object without them is, and the parsed
record (which has exactly the declared fields) never carries the unknown
key. -/
theorem claim_c10_unknown_keys (k : String) (v : JVal) (f : Frontmatter) :
    (k ∉ ["title", "description", "date", "draft", "order", "category",
        "tags", "sidebar"] → docsParse ((k, v) :: f) = docsParse f) ∧
    (k ∉ ["title", "date", "source", "duration", "tags", "processed",
        "stagedItems"] → brainDumpsParse ((k, v) :: f) = brainDumpsParse f) ∧
    (k ∉ ["title", "description", "sourceFile", "extractedDate",
        "targetCategory", "status", "tags", "relatedTopics",
        "integrationNotes"] → stagingParse ((k, v) :: f) = stagingParse f) := by
  refine ⟨fun hk => ?_, fun hk => ?_, fun hk => ?_⟩
  · simp only [List.mem_cons, List.mem_singleton, not_or] at hk
    obtain ⟨h1, h2, h3, h4, h5, h6, h7, h8, -⟩ := hk
    simp only [docsParse, reqField, optField, defField, lookupKey, if_neg h1,
      if_neg h2, if_neg h3, if_neg h4, if_neg h5, if_neg h6, if_neg h7,
      if_neg h8]
  · simp only [List.mem_cons, List.mem_singleton, not_or] at hk
    obtain ⟨h1, h2, h3, h4, h5, h6, h7, -⟩ := hk
    simp only [brainDumpsParse, reqField, optField, defField, lookupKey,
      if_neg h1, if_neg h2, if_neg h3, if_neg h4, if_neg h5, if_neg h6,
      if_neg h7]
  · simp only [List.mem_cons, List.mem_singleton, not_or] at hk
    obtain ⟨h1, h2, h3, h4, h5, h6, h7, h8, h9, -⟩ := hk
    simp only [stagingParse, reqField, optField, defField, lookupKey,
      if_neg h1, if_neg h2, if_neg h3, if_neg h4, if_neg h5, if_neg h6,
      if_neg h7, if_neg h8, if_neg h9]

/-- Witness for C10: adding a concrete unknown key to a concrete accepted
docs entry leaves the parse result unchanged, hence still accepted. -/
theorem claim_c10_witness :
    docsParse [("unknownKey", JVal.num 7), ("title", JVal.str "t"),
      ("description", JVal.str "d")] =
      docsParse [("title", JVal.str "t"), ("description", JVal.str "d")] :=
  (claim_c10_unknown_keys "unknownKey" (JVal.num 7)
    [("title", JVal.str "t"), ("description", JVal.str "d")]).1 (by decide)

/-- Claim C2 is false on the code: the brain-dumps schema has no cross-field
constraint, so it accepts a frontmatter with processed = true and no
stagedItems at all (parsed stagedItems = none). -/
theorem claim_c2_counterexample :
    brainDumpsParse [("title", JVal.str "t"), ("date", JVal.date 1),
      ("source", JVal.str "audio"), ("processed", JVal.bool true)] =
      some ⟨"t", 1, "audio", none, none, true, none⟩ := by
  rfl

/-- Claim C2 (amended): the schema validates stagedItems only per-field —
in an accepted brain dump, stagedItems is absent exactly when the key is
absent, and when present it is exactly the list of strings of the
frontmatter; no constraint ties it to processed = true, which is an
advisory workflow invariant. -/
theorem claim_c2_amended (f : Frontmatter) (b : BrainDump)
    (hp : brainDumpsParse f = some b) :
    (b.stagedItems = none ↔ lookupKey "stagedItems" f = none) ∧
    (∀ l, b.stagedItems = some l →
      lookupKey "stagedItems" f = some (JVal.arr (l.map JVal.str))) := by
  have h1 := (brainDumpsParse_inv hp).2.2.2.2.2.2
  cases hl : lookupKey "stagedItems" f with
  | none =>
    rw [optField_of_absent hl] at h1
    have hn : b.stagedItems = none := (Option.some.inj h1).symm
    refine ⟨by simp [hn], fun l hlst => ?_⟩
    rw [hn] at hlst
    cases hlst
  | some v =>
    rw [optField_of_lookup hl] at h1
    obtain ⟨l0, hz, hb⟩ := Option.map_eq_some'.mp h1
    refine ⟨by simp [← hb], fun l hlst => ?_⟩
    rw [← hb] at hlst
    rw [← Option.some.inj hlst, zArrayString_inv hz]

/-- Witness for the amended C2: on a concrete accepted brain dump whose
stagedItems is present, the frontmatter carries exactly that string list. -/
theorem claim_c2_amended_witness :
    lookupKey "stagedItems" [("title", JVal.str "t"), ("date", JVal.date 1),
      ("source", JVal.str "audio"), ("processed", JVal.bool true),
      ("stagedItems", JVal.arr [JVal.str "s1"])] =
      some (JVal.arr [JVal.str "s1"]) :=
  (claim_c2_amended [("title", JVal.str "t"), ("date", JVal.date 1),
      ("source", JVal.str "audio"), ("processed", JVal.bool true),
      ("stagedItems", JVal.arr [JVal.str "s1"])]
    ⟨"t", 1, "audio", none, none, true, some ["s1"]⟩ rfl).2 ["s1"] rfl

/-- Claim C3 is false on the code: schema acceptance of a staging entry is
independent of the other collections, so a state whose only staging entry
points at a non-existent brain-dump file has every entry schema-accepted
yet violates referential integrity. -/
theorem claim_c3_counterexample :
    stagingParse [("title", JVal.str "t"), ("description", JVal.str "d"),
      ("sourceFile", JVal.str "2025-02-02-missing"),
      ("extractedDate", JVal.date 1), ("tags", JVal.arr [])] =
      some ⟨"t", "d", "2025-02-02-missing", 1, none, "new", [], none, none⟩ ∧
    ¬ refIntegrity ⟨[], [], [],
      [⟨"t", "d", "2025-02-02-missing", 1, none, "new", [], none, none⟩]⟩ := by
  refine ⟨rfl, fun h => ?_⟩
  have hm := h.1 ⟨"t", "d", "2025-02-02-missing", 1, none, "new", [], none,
    none⟩ (by simp)
  simp at hm

/-- Claim C3 (amended): referential integrity is an advisory invariant of a
content state, not a consequence of validation — the schema guarantees only
that every accepted staging entry carries its sourceFile reference as a
required frontmatter string, and integrity of a state holds exactly when
the executable integrity check passes. -/
theorem claim_c3_amended :
    (∀ (f : Frontmatter) (e : StagingEntry), stagingParse f = some e →
      lookupKey "sourceFile" f = some (JVal.str e.sourceFile)) ∧
    (∀ st : ContentState, refIntegrityCheck st = true ↔ refIntegrity st) := by
  constructor
  · intro f e hp
    obtain ⟨v, hl, hz⟩ := reqField_some (stagingParse_inv hp).2.2.1
    rw [zString_some hz] at hl
    exact hl
  · intro st
    unfold refIntegrityCheck refIntegrity sourceFileResolves stagedItemsResolve
    rw [Bool.and_eq_true]
    constructor
    · intro h
      obtain ⟨h1, h2⟩ := h
      constructor
      · intro e he
        simpa using List.all_eq_true.mp h1 e he
      · intro b hb l hl i hi
        have hbl := List.all_eq_true.mp h2 b hb
        rw [hl] at hbl
        simpa using List.all_eq_true.mp hbl i hi
    · intro h
      constructor
      · exact List.all_eq_true.mpr fun e he => by simpa using h.1 e he
      · refine List.all_eq_true.mpr fun b hb => ?_
        cases hl : b.stagedItems with
        | none => rfl
        | some l =>
          exact List.all_eq_true.mpr fun i hi => by
            simpa using h.2 b hb l hl i hi

/-- Witness for the amended C3: a concrete accepted staging entry carries
its sourceFile string, and a concrete state whose references resolve passes
the integrity check and satisfies integrity. -/
theorem claim_c3_amended_witness :
    lookupKey "sourceFile" [("title", JVal.str "t"), ("description", JVal.str "d"),
      ("sourceFile", JVal.str "2025-01-01-dump"), ("extractedDate", JVal.date 1),
      ("tags", JVal.arr [])] = some (JVal.str "2025-01-01-dump") ∧
    refIntegrity ⟨["2025-01-01-dump"], ["s1"],
      [⟨"t", 1, "audio", none, none, true, some ["s1"]⟩],
      [⟨"t", "d", "2025-01-01-dump", 1, none, "new", [], none, none⟩]⟩ :=
  ⟨claim_c3_amended.1 [("title", JVal.str "t"), ("description", JVal.str "d"),
      ("sourceFile", JVal.str "2025-01-01-dump"), ("extractedDate", JVal.date 1),
      ("tags", JVal.arr [])]
      ⟨"t", "d", "2025-01-01-dump", 1, none, "new", [], none, none⟩ rfl,
   (claim_c3_amended.2 ⟨["2025-01-01-dump"], ["s1"],
      [⟨"t", 1, "audio", none, none, true, some ["s1"]⟩],
      [⟨"t", "d", "2025-01-01-dump", 1, none, "new", [], none, none⟩]⟩).mp
     (by decide)⟩

/-- Claim C7: round-trip — serializing a parsed frontmatter record of any of
the three schemas back to a YAML mapping and reparsing it yields the
identical record (for the two schemas with an enum field, provided the
record's enum value is legal, as it is in every accepted record). -/
theorem claim_c7_roundtrip :
    (∀ d : DocPage, docsParse (docsEmit d) = some d) ∧
    (∀ b : BrainDump, b.source ∈ sourceEnum →
      brainDumpsParse (brainDumpsEmit b) = some b) ∧
    (∀ e : StagingEntry, e.status ∈ statusEnum →
      stagingParse (stagingEmit e) = some e) := by
  refine ⟨fun d => ?_, fun b hb => ?_, fun e he => ?_⟩
  · rcases d with ⟨t, ds, dt, dr, odr, c, tg, sb⟩
    cases dt <;> cases odr <;> cases c <;> cases tg <;>
      simp [docsParse, docsEmit, optEntry, reqField, optField, defField,
        lookupKey, zString, zBool, zNumber, zDate, zArrayString, strList_map]
  · rcases b with ⟨t, dt, so, du, tg, pr, si⟩
    cases du <;> cases tg <;> cases si <;>
      simp [brainDumpsParse, brainDumpsEmit, optEntry, reqField, optField,
        defField, lookupKey, zString, zBool, zDate, zArrayString, strList_map,
        zEnum, hb]
  · rcases e with ⟨t, ds, sf, ed, tc, st, tg, rt, intg⟩
    cases tc <;> cases rt <;> cases intg <;>
      simp [stagingParse, stagingEmit, optEntry, reqField, optField, defField,
        lookupKey, zString, zDate, zArrayString, strList_map, zEnum, he]

/-- Witness for C7: the round-trip on concrete records of each schema. -/
theorem claim_c7_witness :
    docsParse (docsEmit ⟨"t", "d", some 1, true, some 2, some "c",
      some ["x"], false⟩) =
      some ⟨"t", "d", some 1, true, some 2, some "c", some ["x"], false⟩ ∧
    brainDumpsParse (brainDumpsEmit ⟨"t", 1, "audio", some "5m", some ["x"],
      true, some ["s1"]⟩) =
      some ⟨"t", 1, "audio", some "5m", some ["x"], true, some ["s1"]⟩ ∧
    stagingParse (stagingEmit ⟨"t", "d", "2025-01-01-dump", 1, some "c",
      "reviewed", ["x"], some ["y"], some "n"⟩) =
      some ⟨"t", "d", "2025-01-01-dump", 1, some "c", "reviewed", ["x"],
        some ["y"], some "n"⟩ :=
  ⟨claim_c7_roundtrip.1 ⟨"t", "d", some 1, true, some 2, some "c",
      some ["x"], false⟩,
   claim_c7_roundtrip.2.1 ⟨"t", 1, "audio", some "5m", some ["x"], true,
      some ["s1"]⟩ (by decide),
   claim_c7_roundtrip.2.2 ⟨"t", "d", "2025-01-01-dump", 1, some "c",
      "reviewed", ["x"], some ["y"], some "n"⟩ (by decide)⟩

/-- Claim C8: along any sequence of workflow edits to a staging entry, the
status never regresses in the order new → reviewed → ready → integrated. -/
theorem claim_c8_status_monotone (e e' : StagingEntry)
    (h : Relation.ReflTransGen WorkflowEdit e e') :
    statusRank e.status ≤ statusRank e'.status := by
  induction h with
  | refl => exact le_refl _
  | tail hab hbc ih =>
    refine le_trans ih ?_
    rcases hbc with heq | hadv
    · rw [heq]
    · rcases hadv with ⟨h1, h2⟩ | ⟨h1, h2⟩ | ⟨h1, h2⟩ <;> rw [h1, h2] <;> decide

/-- Witness for C8: a concrete single workflow edit advancing a concrete
entry from new to reviewed does not lower the rank. -/
theorem claim_c8_witness :
    statusRank (⟨"t", "d", "x", 1, none, "new", [], none, none⟩ :
      StagingEntry).status ≤
    statusRank (⟨"t", "d", "x", 1, none, "reviewed", [], none, none⟩ :
      StagingEntry).status :=
  claim_c8_status_monotone ⟨"t", "d", "x", 1, none, "new", [], none, none⟩
    ⟨"t", "d", "x", 1, none, "reviewed", [], none, none⟩
    (Relation.ReflTransGen.single (Or.inr (Or.inl ⟨rfl, rfl⟩)))

end AgenticKB
